import Mathlib

/-!
Shallow embedding of the energia-ai-python crawling core:
the ELI identifier resolver, compliance validation, proxy management,
the crawl orchestration loops of the NJT and Jogtár crawlers, the
document extractor's failure policy, and the Magyar Közlöny change
detection engine, as implemented under src/app/crawlers and
src/app/monitoring.

Python strings are modelled as Lean `String`/`List Char`; Python sets
of strings as duplicate-free `List String` built with `List.insert`;
Python dicts keyed by strings as ordered association structures that
mirror CPython's insertion-order semantics; machine-independent Python
ints as `Nat`/`Int`; and fallible `await` points as explicit
`Except`/oracle parameters supplied by an environment record.
-/

namespace EnergiaAI

/-- Python `str.lower` restricted to the ASCII letters plus the uppercase
Hungarian accented vowels that occur in the crawler's keyword lists. -/
def pyLower (c : Char) : Char :=
  if 'A' ≤ c ∧ c ≤ 'Z' then Char.ofNat (c.toNat + 32)
  else if c = 'Á' then 'á'
  else if c = 'É' then 'é'
  else if c = 'Í' then 'í'
  else if c = 'Ó' then 'ó'
  else if c = 'Ö' then 'ö'
  else if c = 'Ő' then 'ő'
  else if c = 'Ú' then 'ú'
  else if c = 'Ü' then 'ü'
  else if c = 'Ű' then 'ű'
  else c

/-- Python `s.lower()` over the modelled alphabet. -/
def lowerStr (s : String) : String :=
  String.mk (s.data.map pyLower)

/-- Whether the first list is an initial segment of the second. -/
def startsList : List Char → List Char → Bool
  | [], _ => true
  | _ :: _, [] => false
  | a :: as, b :: bs => a = b && startsList as bs

/-- Whether the first list occurs contiguously inside the second. -/
def occursIn (needle hay : List Char) : Bool :=
  startsList needle hay ||
    match hay with
    | [] => false
    | _ :: t => occursIn needle t

/-- Python's substring test `needle in hay`. -/
def containsSub (hay needle : String) : Bool :=
  occursIn needle.data hay.data

/-- Python regex `\d`. -/
def isPyDigit (c : Char) : Bool :=
  '0' ≤ c && c ≤ '9'

/-- Python regex `\s` restricted to the ASCII whitespace characters. -/
def isPySpace (c : Char) : Bool :=
  c = ' ' || c = '\t' || c = '\n' || c = '\r' || c = Char.ofNat 11 || c = Char.ofNat 12

/-- The character class `[IVXLCDM]` of the law regex. -/
def isRomanChar (c : Char) : Bool :=
  c = 'I' || c = 'V' || c = 'X' || c = 'L' || c = 'C' || c = 'D' || c = 'M'

/-- Python `int(...)` applied to a matched digit group. -/
def digitsToNat (ds : List Char) : Nat :=
  ds.foldl (fun n c => 10 * n + (c.toNat - '0'.toNat)) 0

/-- ELIIdentifier from src/app/crawlers/njt_crawler.py (dataclass with
defaults country="hu", type="", year=0, number="", point="", version="",
language="hu"). -/
structure ELIIdentifier where
  country : String := "hu"
  type : String := ""
  year : Nat := 0
  number : String := ""
  point : String := ""
  version : String := ""
  language : String := "hu"
  deriving Repr, DecidableEq

/-- `ELIIdentifier.to_uri` from njt_crawler.py: the f-string base URI plus
the three conditional suffixes (Python string truthiness = non-empty;
the language suffix is appended only when different from "hu"). -/
def ELIIdentifier.to_uri (e : ELIIdentifier) : String :=
  let base_uri := "http://www.njt.hu/eli/" ++ e.country ++ "/" ++ e.type ++ "/"
      ++ toString e.year ++ "/" ++ e.number
  let base_uri := if e.point ≠ "" then base_uri ++ "/" ++ e.point else base_uri
  let base_uri := if e.version ≠ "" then base_uri ++ "/" ++ e.version else base_uri
  let base_uri := if e.language ≠ "hu" then base_uri ++ "/" ++ e.language else base_uri
  base_uri

/-- The regex `(\d{4})\.\s*évi\s+([IVXLCDM]+)\.\s*törvény` applied with
`re.match` (anchored at the start, free suffix). Every bounded repetition
in the pattern is followed by a character disjoint from its class, so the
backtracking semantics coincides with this maximal-munch parse. Returns
the two capture groups (year digits as a number, roman-numeral string). -/
def matchLaw (s : List Char) : Option (Nat × String) :=
  match s with
  | c1 :: c2 :: c3 :: c4 :: '.' :: r1 =>
    if isPyDigit c1 && isPyDigit c2 && isPyDigit c3 && isPyDigit c4 then
      let r2 := r1.dropWhile isPySpace
      if r2.take 3 = ['é', 'v', 'i'] then
        let r3 := r2.drop 3
        if (r3.takeWhile isPySpace).isEmpty then none
        else
          let r4 := r3.dropWhile isPySpace
          let rom := r4.takeWhile isRomanChar
          if rom.isEmpty then none
          else
            match r4.dropWhile isRomanChar with
            | '.' :: r5 =>
              let r6 := r5.dropWhile isPySpace
              if r6.take 7 = ['t', 'ö', 'r', 'v', 'é', 'n', 'y'] then
                some (digitsToNat [c1, c2, c3, c4], String.mk rom)
              else none
            | _ => none
      else none
    else none
  | _ => none

/-- The regex `(\d+)/(\d{4})\.\s*\([^)]+\)\s*([^.]+)\.\s*rendelet` applied
with `re.match`. Again every repetition is followed by a character outside
its class, so maximal munch is faithful. Returns (number, year, issuer). -/
def matchDecree (s : List Char) : Option (String × Nat × String) :=
  let num := s.takeWhile isPyDigit
  if num.isEmpty then none
  else
    match s.dropWhile isPyDigit with
    | '/' :: r1 =>
      match r1 with
      | y1 :: y2 :: y3 :: y4 :: '.' :: r2 =>
        if isPyDigit y1 && isPyDigit y2 && isPyDigit y3 && isPyDigit y4 then
          match r2.dropWhile isPySpace with
          | '(' :: r3 =>
            let inner := r3.takeWhile (fun c => c ≠ ')')
            if inner.isEmpty then none
            else
              match r3.dropWhile (fun c => c ≠ ')') with
              | ')' :: r4 =>
                let r5 := r4.dropWhile isPySpace
                let issuer := r5.takeWhile (fun c => c ≠ '.')
                if issuer.isEmpty then none
                else
                  match r5.dropWhile (fun c => c ≠ '.') with
                  | '.' :: r6 =>
                    if (r6.dropWhile isPySpace).take 8 = ['r', 'e', 'n', 'd', 'e', 'l', 'e', 't'] then
                      some (String.mk num, digitsToNat [y1, y2, y3, y4], String.mk issuer)
                    else none
                  | _ => none
              | _ => none
          | _ => none
        else none
      | _ => none
    | _ => none

/-- `ELIIdentifier.from_njt_reference`: try the law pattern, then the decree
pattern (classifying the issuer by the substring "korm" of its lowercase
form), and fall back to the zero-value identifier. -/
def ELIIdentifier.from_njt_reference (reference : String) : ELIIdentifier :=
  match matchLaw reference.data with
  | some (y, n) => { year := y, number := n, type := "torveny" }
  | none =>
    match matchDecree reference.data with
    | some (n, y, issuer) =>
      { number := n, year := y,
        type := if containsSub (lowerStr issuer) "korm" then "korm.rendelet" else "rendelet" }
    | none => {}

/-- The fixed-order URI template stated in the spec's data-model section:
mandatory country/type/year/number, then optional point, version, and
non-default language segments. -/
def specEliUriTemplate (e : ELIIdentifier) : String :=
  "http://www.njt.hu/eli/" ++ e.country ++ "/" ++ e.type ++ "/"
      ++ toString e.year ++ "/" ++ e.number
    ++ (if e.point ≠ "" then "/" ++ e.point else "")
    ++ (if e.version ≠ "" then "/" ++ e.version else "")
    ++ (if e.language ≠ "hu" then "/" ++ e.language else "")

/-- A document record as seen by `NJTCrawler.validate_eli_compliance`: each
checked field is either absent (`none`, "field not in document") or holds a
string whose Python truthiness is non-emptiness. -/
structure ComplianceDoc where
  eli_uri : Option String
  title : Option String
  content : Option String
  status : Option String

/-- Python truthiness of a possibly missing string field:
`field in document and document[field]`. -/
def fieldTruthy : Option String → Bool
  | some s => !(s = "")
  | none => false

/-- `NJTCrawler.validate_eli_compliance` from njt_crawler.py: return false at
the first absent/falsy field among eli_uri, title, content, status, then
false unless eli_uri starts with "http://www.njt.hu/eli/", else true. -/
def validate_eli_compliance (document : ComplianceDoc) : Bool :=
  fieldTruthy document.eli_uri &&
  fieldTruthy document.title &&
  fieldTruthy document.content &&
  fieldTruthy document.status &&
  (match document.eli_uri with
   | some eli_uri => String.startsWith eli_uri "http://www.njt.hu/eli/"
   | none => false)

namespace AntiDetection

/-- `AdvancedProxyManager` from src/app/crawlers/anti_detection/proxy.py.
The Python `set` of failed proxies is a duplicate-free list mutated only by
`List.insert` (add once) and reset to empty. -/
structure AdvancedProxyManager where
  proxies : List String
  current_proxy : Option String
  failed_proxies : List String
  deriving Repr, DecidableEq

/-- The constructor `AdvancedProxyManager(proxy_list)`. -/
def mkProxyManager (proxy_list : List String) : AdvancedProxyManager :=
  { proxies := proxy_list, current_proxy := none, failed_proxies := [] }

/-- The proxy dict returned to Playwright: `{"server": ..., "username": None,
"password": None}`. -/
structure ProxyDict where
  server : String
  username : Option String
  password : Option String
  deriving Repr, DecidableEq

/-- The active set computed inside `get_next_proxy`: proxies not in the
failed set. -/
def activeProxies (m : AdvancedProxyManager) : List String :=
  m.proxies.filter (fun p => !m.failed_proxies.contains p)

/-- `AdvancedProxyManager.get_next_proxy`: none when the proxy list or the
active set is empty, otherwise `random.choice(active_proxies)` — the random
draw is modelled by an arbitrary index `k` reduced modulo the active-set
size — recorded as `current_proxy` and returned as a Playwright dict. -/
def get_next_proxy (m : AdvancedProxyManager) (k : Nat) :
    Option ProxyDict × AdvancedProxyManager :=
  if m.proxies.isEmpty then (none, m)
  else
    let active := activeProxies m
    if active.isEmpty then (none, m)
    else
      let proxy := active.getD (k % active.length) ""
      (some { server := proxy, username := none, password := none },
       { m with current_proxy := some proxy })

/-- `AdvancedProxyManager.mark_proxy_failed`: `self.failed_proxies.add(proxy)`. -/
def mark_proxy_failed (m : AdvancedProxyManager) (proxy : String) :
    AdvancedProxyManager :=
  { m with failed_proxies :=
      if m.failed_proxies.contains proxy then m.failed_proxies
      else proxy :: m.failed_proxies }

/-- `AdvancedProxyManager.reset_failed_proxies`: `self.failed_proxies = set()`. -/
def reset_failed_proxies (m : AdvancedProxyManager) : AdvancedProxyManager :=
  { m with failed_proxies := [] }

end AntiDetection

namespace BaseCrawlerMod

/-- `AdvancedProxyManager` as redefined in src/app/crawlers/base_crawler.py:
the variant actually instantiated by `BaseCrawler.__init__` and therefore
used by the Jogtár and Magyar Közlöny crawl retry loops. Its
`current_proxy` is the dict `{"server": ...}`, modelled by its server
string. -/
structure ProxyState where
  proxy_list : List String
  current_proxy : Option String
  failed_proxies : List String
  deriving Repr, DecidableEq

/-- The base-crawler `get_next_proxy`: draw from the available (non-failed)
proxies and record it as `current_proxy`; when none are available return
None and leave `current_proxy` unchanged. -/
def get_next_proxy (m : ProxyState) (k : Nat) : Option String × ProxyState :=
  let available := m.proxy_list.filter (fun p => !m.failed_proxies.contains p)
  if available.isEmpty then (none, m)
  else
    let proxy := available.getD (k % available.length) ""
    (some proxy, { m with current_proxy := some proxy })

/-- The base-crawler `mark_proxy_failed`: `self.failed_proxies.add(proxy_url)`. -/
def mark_proxy_failed (m : ProxyState) (proxy_url : String) : ProxyState :=
  { m with failed_proxies :=
      if m.failed_proxies.contains proxy_url then m.failed_proxies
      else proxy_url :: m.failed_proxies }

/-- `BaseCrawler.__init__`: `AdvancedProxyManager(proxy_list) if proxy_list
else None`. -/
def initProxyManager (proxy_list : List String) : Option ProxyState :=
  if proxy_list.isEmpty then none
  else some { proxy_list := proxy_list, current_proxy := none, failed_proxies := [] }

end BaseCrawlerMod

namespace JogtarMod

/-- Outcome of one attempted fetch pass of `JogtarCrawler.crawl` /
`MagyarKozlonyCrawler.crawl`: success, a `PlaywrightError` whose text
contains "proxy" (lower-cased), or any other `PlaywrightError`. -/
inductive FetchResult where
  | ok
  | proxyError
  | otherError
  deriving Repr, DecidableEq

/-- Result of running `crawl()` under a recursion-fuel bound: the run
completed (after `rotations` proxy-failure restarts), re-raised a non-proxy
error, or was still recursing when the fuel ran out. -/
inductive CrawlOutcome where
  | completed (rotations : Nat)
  | raised (rotations : Nat)
  | stillRetrying (rotations : Nat)
  deriving Repr, DecidableEq

/-- `JogtarCrawler.crawl` from src/app/crawlers/jogtar_crawler.py (the
Magyar Közlöny crawler's `crawl` has the identical except-branch): the
session setup draws a proxy via the base crawler's manager when one
exists (`_configure_browser_context`); the fetch oracle says whether the
attempt raises a proxy-classified error; on such an error the current
proxy, when set, is marked failed and the method restarts itself with
`return await self.crawl()` — with no retry counter. `fuel` bounds the
unfolding of that unbounded self-recursion. -/
def crawl (fetch : Option String → FetchResult) (k : Nat) :
    Nat → Option BaseCrawlerMod.ProxyState → CrawlOutcome
  | 0, _ => .stillRetrying 0
  | fuel + 1, pmOpt =>
    let (proxyOpt, pmOpt) :=
      match pmOpt with
      | none => (none, none)
      | some m =>
        let (p, m') := BaseCrawlerMod.get_next_proxy m k
        (p, some m')
    match fetch proxyOpt with
    | .ok => .completed 0
    | .otherError => .raised 0
    | .proxyError =>
      let pmOpt :=
        match pmOpt with
        | some m =>
          match m.current_proxy with
          | some server => some (BaseCrawlerMod.mark_proxy_failed m server)
          | none => some m
        | none => none
      match crawl fetch k fuel pmOpt with
      | .completed n => .completed (n + 1)
      | .raised n => .raised (n + 1)
      | .stillRetrying n => .stillRetrying (n + 1)

/-- A fetch environment in which every attempt made through a proxy raises
a proxy-classified `PlaywrightError`, while a direct (proxy-less) attempt
succeeds. -/
def fetchProxiesAllBad : Option String → FetchResult
  | some _ => .proxyError
  | none => .ok

/-- A fetch environment in which every attempt, with or without a proxy,
raises an error whose text contains "proxy" (e.g. an upstream gateway
message). -/
def fetchAlwaysProxyError : Option String → FetchResult :=
  fun _ => .proxyError

end JogtarMod

namespace NJTMod

/-- `self.crawl_statistics` as initialised by `NJTCrawler.__init__`
(timestamps are abstract integers supplied by the environment). -/
structure CrawlStatistics where
  documents_found : Nat
  documents_processed : Nat
  documents_updated : Nat
  errors : Nat
  start_time : Option Int
  end_time : Option Int
  deriving Repr, DecidableEq

/-- The starting statistics dict of a freshly constructed `NJTCrawler`. -/
def initStatistics : CrawlStatistics :=
  { documents_found := 0, documents_processed := 0, documents_updated := 0,
    errors := 0, start_time := none, end_time := none }

/-- Outcome of `_process_document(page, link)` for one link, as observed by
the loop in `crawl_search_results`: a truthy document dict, a `None`
return (its internal catch, or extraction without a title), or an
exception that escapes into the loop's own except-branch. -/
inductive ProcessOutcome (α : Type) where
  | ok (document : α)
  | returnedNone
  | raised (message : String)

/-- Environment of one `crawl_search_results` invocation: the timestamps
taken at entry and exit, whether the initial `page.goto(self.base_url)`
raises, the candidate-link list accumulated by the scanning loops of
`_extract_document_links` before its final truncation, and the
per-link behaviour of `_process_document`. -/
structure CrawlEnv (α : Type) where
  t0 : Int
  t1 : Int
  gotoMain : Except String Unit
  rawLinks : List String
  processDoc : String → ProcessOutcome α

/-- `NJTCrawler._extract_document_links`: the scanning loops build `links`
(page-dependent, supplied as `env.rawLinks`) and the function returns
`links[:10]`. -/
def extract_document_links {α : Type} (env : CrawlEnv α) : List String :=
  env.rawLinks.take 10

/-- The body of the `for i, link in enumerate(document_links[:5])` loop:
a truthy document is appended and counted in `documents_processed`; a
`None` result changes nothing; an exception increments `errors` and
continues. -/
def processStep {α : Type} (env : CrawlEnv α)
    (acc : List α × CrawlStatistics) (link : String) :
    List α × CrawlStatistics :=
  match env.processDoc link with
  | .ok document =>
    (acc.1 ++ [document],
     { acc.2 with documents_processed := acc.2.documents_processed + 1 })
  | .returnedNone => acc
  | .raised _ =>
    (acc.1, { acc.2 with errors := acc.2.errors + 1 })

/-- `NJTCrawler.crawl_search_results` (also reached as `NJTCrawler.crawl`):
record `start_time`; a failure of the initial navigation is logged and
re-raised (`raise`), so the accumulated `documents` list is never returned
on that path and `end_time` is never written; otherwise count the found
links, run the bounded per-document loop over `document_links[:5]`, stamp
`end_time`, and return the accumulated documents. The returned pair is
(what the caller receives, the final `self.crawl_statistics`). -/
def crawl_search_results {α : Type} (env : CrawlEnv α)
    (stats : CrawlStatistics) : Except String (List α) × CrawlStatistics :=
  let stats := { stats with start_time := some env.t0 }
  match env.gotoMain with
  | .error e => (.error e, stats)
  | .ok _ =>
    let document_links := extract_document_links env
    let stats := { stats with documents_found := document_links.length }
    let result := (document_links.take 5).foldl (processStep env) ([], stats)
    (.ok result.1, { result.2 with end_time := some env.t1 })

/-- `NJTCrawler.get_crawl_statistics`: when both timestamps are present a
`duration_seconds` entry is derived; the statistics are returned as a
copy. -/
def get_crawl_statistics (stats : CrawlStatistics) :
    CrawlStatistics × Option Int :=
  match stats.start_time, stats.end_time with
  | some a, some b => (stats, some (b - a))
  | _, _ => (stats, none)

/-- A concrete fatal run: the initial navigation to njt.hu times out, so
`crawl_search_results` re-raises. -/
def fatalNavEnv : CrawlEnv Unit :=
  { t0 := 100, t1 := 200, gotoMain := .error "Timeout 30000ms exceeded",
    rawLinks := ["https://njt.hu/jogszabaly/1"],
    processDoc := fun _ => .ok () }

/-- A concrete completed run: navigation succeeds, two candidate links are
found, the first is processed into a document and the second raises a
non-proxy error inside the loop. -/
def okRunEnv : CrawlEnv Unit :=
  { t0 := 10, t1 := 20, gotoMain := .ok (),
    rawLinks := ["https://njt.hu/jogszabaly/1", "https://njt.hu/jogszabaly/2"],
    processDoc := fun link =>
      if link = "https://njt.hu/jogszabaly/1" then .ok ()
      else .raised "net::ERR_CONNECTION_RESET" }

end NJTMod

namespace ExtractMod

/-- The dict assembled by `NJTCrawler._extract_document_data`. -/
structure DocData where
  url : String
  title : String
  content : String
  document_type : String
  issuer : String
  status : String
  subject_areas : List String
  citations : List String
  amendments : List String
  deriving Repr, DecidableEq

/-- Environment of one `_extract_document_data(page, url)` call: whether
`page.content()` raises, the text of the first `h1`/`h2`/`title` element
found by BeautifulSoup in that content (if any), whether the fallback
`page.title()` raises, and the script/style-stripped body text. -/
structure ExtractEnv where
  pageContent : Except String Unit
  findTitleText : Option String
  pageTitle : Except String String
  bodyText : String

/-- The title clean-up applied when the extracted heading mentions the
site name: split on "-" and keep the stripped first part when the split
produced more than one piece. -/
def cleanTitle (title_text : String) : String :=
  if containsSub title_text "Nemzeti Jogszabálytár" then
    let parts := title_text.splitOn "-"
    if parts.length > 1 then (parts.headD "").trim else title_text
  else title_text

/-- The try-body of `_extract_document_data`: fetch the page content,
extract and clean the title (falling back to `page.title()` and then to a
URL-derived title), truncate the body text to 5000 characters, and apply
the keyword classification over the lower-cased title and full body. -/
def extractBody (env : ExtractEnv) (url : String) : Except String DocData := do
  let _ ← env.pageContent
  let title ←
    match env.findTitleText with
    | some t => pure (cleanTitle t)
    | none => do
      let page_title ← env.pageTitle
      pure (if page_title ≠ "" then page_title else "Document from " ++ url)
  let document_content := env.bodyText
  let title_lower := lowerStr title
  let content_lower := lowerStr document_content
  let (document_type, issuer, status) :=
    if containsSub title_lower "törvény" || containsSub content_lower "törvény" then
      ("törvény", "országgyűlés", "hatályos")
    else if containsSub title_lower "rendelet" || containsSub content_lower "rendelet" then
      ("rendelet", "kormány", "hatályos")
    else
      ("egyéb", "ismeretlen", "ismeretlen")
  pure { url := url, title := title, content := document_content.take 5000,
         document_type := document_type, issuer := issuer, status := status,
         subject_areas := [], citations := [], amendments := [] }

/-- The record produced by the except-branch's `setdefault` calls when the
failure happened before any field beyond `url` was written. -/
def placeholderData (url : String) : DocData :=
  { url := url, title := "Document from " ++ url, content := "",
    document_type := "egyéb", issuer := "ismeretlen", status := "ismeretlen",
    subject_areas := [], citations := [], amendments := [] }

/-- `_extract_document_data` with its `except Exception` handler: any
exception from the body is swallowed and defaults are filled in; the
function always returns a dict. Raises can only occur at `page.content()`
or at the fallback `page.title()`, both of which precede every field
assignment except `url`. -/
def extract_document_data (env : ExtractEnv) (url : String) : DocData :=
  match extractBody env url with
  | .ok data => data
  | .error _ => placeholderData url

/-- A concrete page whose `page.content()` call raises. -/
def failingExtractEnv : ExtractEnv :=
  { pageContent := .error "net::ERR_TIMED_OUT", findTitleText := none,
    pageTitle := .error "net::ERR_TIMED_OUT", bodyText := "" }

end ExtractMod

namespace MonitorMod

/-- `PublicationItem` from src/app/monitoring/magyar_kozlony_monitor.py
(the `metadata` dict of arbitrary values is omitted; no modelled code
reads it). -/
structure PublicationItem where
  publication_id : String
  title : String
  publication_date : Int
  url : String
  content_hash : String
  item_type : String
  legal_references : List String
  change_type : String := "new"
  importance_level : String := "medium"
  deriving Repr, DecidableEq

/-- Key list of the dict `{pub.publication_id: pub for pub in l}`:
first-insertion order, one entry per id (CPython dict semantics). -/
def dictKeys (l : List PublicationItem) : List String :=
  l.foldl
    (fun ks p => if ks.contains p.publication_id then ks else ks ++ [p.publication_id])
    []

/-- Value lookup in the same dict: the last item of the list carrying the
key wins, as a dict comprehension overwrites earlier entries. -/
def dictGet (l : List PublicationItem) (key : String) : Option PublicationItem :=
  (l.filter (fun p => p.publication_id == key)).getLast?

/-- The in-place assignment `pub.change_type = c` before appending. -/
def withChange (p : PublicationItem) (c : String) : PublicationItem :=
  { p with change_type := c }

/-- `ChangeDetectionEngine.detect_changes`: index both snapshots by id,
then append — in this order — the current-only items tagged "new", the
in-both items with differing `content_hash` tagged "modified", and the
previous-only items tagged "deleted". -/
def detect_changes (current_publications previous_publications : List PublicationItem) :
    List PublicationItem :=
  let current_keys := dictKeys current_publications
  let previous_keys := dictKeys previous_publications
  let new_items := current_keys.filterMap fun k =>
    if previous_keys.contains k then none
    else (dictGet current_publications k).map (withChange · "new")
  let modified_items := current_keys.filterMap fun k =>
    if previous_keys.contains k then
      match dictGet current_publications k, dictGet previous_publications k with
      | some current_pub, some previous_pub =>
        if current_pub.content_hash ≠ previous_pub.content_hash then
          some (withChange current_pub "modified")
        else none
      | _, _ => none
    else none
  let deleted_items := previous_keys.filterMap fun k =>
    if current_keys.contains k then none
    else (dictGet previous_publications k).map (withChange · "deleted")
  new_items ++ modified_items ++ deleted_items

/-- A snapshot item carrying only the fields the change detector reads,
used to state the spec's worked example. -/
def examplePub (publication_id content_hash : String) : PublicationItem :=
  { publication_id := publication_id, title := "", publication_date := 0,
    url := "", content_hash := content_hash, item_type := "",
    legal_references := [] }

/-- The critical keyword list of `calculate_importance_level`. -/
def critical_terms : List String :=
  ["törvény", "alkotmány", "rendkívüli", "sürgős", "veszélyhelyzet"]

/-- The high-importance keyword list. -/
def high_terms : List String :=
  ["rendelet", "határozat", "módosítás", "energia", "villamos"]

/-- The medium-importance keyword list. -/
def medium_terms : List String :=
  ["közlemény", "tájékoztató", "felhívás"]

/-- `ChangeDetectionEngine.calculate_importance_level`: accumulate the
score exactly as the Python does (one `+= 4`/`+= 2`/`+= 1` per keyword
category whose `any(...)` test fires on the lower-cased title, plus
`min(len(legal_references), 2)`), then bucket it. -/
def calculate_importance_level (publication : PublicationItem) : String :=
  let title_lower := lowerStr publication.title
  let importance_score := 0
  let importance_score :=
    if critical_terms.any (fun term => containsSub title_lower term) then
      importance_score + 4
    else importance_score
  let importance_score :=
    if high_terms.any (fun term => containsSub title_lower term) then
      importance_score + 2
    else importance_score
  let importance_score :=
    if medium_terms.any (fun term => containsSub title_lower term) then
      importance_score + 1
    else importance_score
  let importance_score :=
    importance_score + min publication.legal_references.length 2
  if importance_score ≥ 4 then "critical"
  else if importance_score ≥ 2 then "high"
  else if importance_score ≥ 1 then "medium"
  else "low"

/-- The weighted-hit score as worded in the spec: critical terms weigh 4,
high terms 2, medium terms 1, plus `min(len(legal_references), 2)`. -/
def specImportanceScore (publication : PublicationItem) : Nat :=
  (if critical_terms.any (fun t => containsSub (lowerStr publication.title) t) then 4 else 0)
  + (if high_terms.any (fun t => containsSub (lowerStr publication.title) t) then 2 else 0)
  + (if medium_terms.any (fun t => containsSub (lowerStr publication.title) t) then 1 else 0)
  + min publication.legal_references.length 2

/-- The spec's bucketing of the total: critical at 4 and above, high at 2,
medium at 1, low otherwise. -/
def specImportanceBucket (score : Nat) : String :=
  if 4 ≤ score then "critical"
  else if 2 ≤ score then "high"
  else if 1 ≤ score then "medium"
  else "low"

end MonitorMod

/-! ## General lemmas -/

theorem strAppend_assoc (a b c : String) : a ++ b ++ c = a ++ (b ++ c) := by
  apply String.ext
  simp [String.data_append, List.append_assoc]

theorem strAppend_empty (a : String) : a ++ "" = a := by
  apply String.ext
  simp [String.data_append]

theorem fieldTruthy_eq_true (o : Option String) :
    fieldTruthy o = true ↔ ∃ s, o = some s ∧ s ≠ "" := by
  cases o <;> simp [fieldTruthy]

theorem dropWhile_all_append_cons (p : Char → Bool) :
    ∀ (w : List Char) (c : Char) (l : List Char),
      (∀ x ∈ w, p x = true) → p c = false →
      (w ++ c :: l).dropWhile p = c :: l := by
  intro w
  induction w with
  | nil =>
    intro c l _ hc
    simp [List.dropWhile_cons, hc]
  | cons a as ih =>
    intro c l hw hc
    have ha : p a = true := hw a (List.mem_cons_self a as)
    simp only [List.cons_append, List.dropWhile_cons, ha, if_true]
    exact ih c l (fun x hx => hw x (List.mem_cons_of_mem a hx)) hc

theorem takeWhile_all_append_cons (p : Char → Bool) :
    ∀ (w : List Char) (c : Char) (l : List Char),
      (∀ x ∈ w, p x = true) → p c = false →
      (w ++ c :: l).takeWhile p = w := by
  intro w
  induction w with
  | nil =>
    intro c l _ hc
    simp [List.takeWhile_cons, hc]
  | cons a as ih =>
    intro c l hw hc
    have ha : p a = true := hw a (List.mem_cons_self a as)
    simp only [List.cons_append, List.takeWhile_cons, ha, if_true]
    rw [ih c l (fun x hx => hw x (List.mem_cons_of_mem a hx)) hc]

theorem matchLaw_complete
    (d1 d2 d3 d4 : Char) (w1 : List Char) (s0 : Char) (w2 : List Char)
    (r0 : Char) (rom w3 suffix : List Char)
    (hd1 : isPyDigit d1 = true) (hd2 : isPyDigit d2 = true)
    (hd3 : isPyDigit d3 = true) (hd4 : isPyDigit d4 = true)
    (hw1 : ∀ x ∈ w1, isPySpace x = true) (hs0 : isPySpace s0 = true)
    (hw2 : ∀ x ∈ w2, isPySpace x = true)
    (hr0 : isRomanChar r0 = true) (hrom : ∀ x ∈ rom, isRomanChar x = true)
    (hw3 : ∀ x ∈ w3, isPySpace x = true) :
    matchLaw (d1 :: d2 :: d3 :: d4 :: '.' ::
        (w1 ++ 'é' :: 'v' :: 'i' :: s0 ::
          (w2 ++ r0 ::
            (rom ++ '.' ::
              (w3 ++ 't' :: 'ö' :: 'r' :: 'v' :: 'é' :: 'n' :: 'y' :: suffix))))) =
      some (digitsToNat [d1, d2, d3, d4], String.mk (r0 :: rom)) := by
  have hnotsp_e : isPySpace 'é' = false := rfl
  have hnotsp_t : isPySpace 't' = false := rfl
  have hnotrom_dot : isRomanChar '.' = false := rfl
  have hr0sp : isPySpace r0 = false := by
    simp only [isRomanChar, Bool.or_eq_true, decide_eq_true_eq] at hr0
    rcases hr0 with (((((h | h) | h) | h) | h) | h) | h <;> subst h <;> rfl
  simp only [matchLaw, hd1, hd2, hd3, hd4, Bool.and_self, if_true]
  rw [dropWhile_all_append_cons isPySpace w1 'é' _ hw1 hnotsp_e]
  simp only [List.take, List.drop, if_true]
  rw [List.takeWhile_cons, hs0]
  simp only [if_true, List.isEmpty_cons]
  rw [List.dropWhile_cons, if_pos hs0,
    dropWhile_all_append_cons isPySpace w2 r0 _ hw2 hr0sp]
  rw [List.takeWhile_cons, if_pos hr0,
    takeWhile_all_append_cons isRomanChar rom '.' _ hrom hnotrom_dot]
  simp only [List.isEmpty_cons]
  rw [List.dropWhile_cons, if_pos hr0,
    dropWhile_all_append_cons isRomanChar rom '.' _ hrom hnotrom_dot]
  simp only [Bool.false_eq_true, if_false]
  rw [dropWhile_all_append_cons isPySpace w3 't' _ hw3 hnotsp_t]
  rfl

/-! ## Claim theorems -/

/-- C4: for every string matching the law pattern
`"YYYY. évi ROMAN. törvény"` (four digits, a dot, optional whitespace,
`évi`, at least one whitespace, a non-empty roman numeral, a dot, optional
whitespace, `törvény`, arbitrary suffix), `from_njt_reference` extracts
the year and roman number exactly with type `torveny`, and `to_uri` places
both in the expected positions of the canonical URI; in particular
`"2023. évi XVIII. törvény"` resolves to `{torveny, 2023, "XVIII"}` with
URI `http://www.njt.hu/eli/hu/torveny/2023/XVIII`. -/
theorem law_pattern_resolution :
    (∀ (d1 d2 d3 d4 : Char) (w1 : List Char) (s0 : Char) (w2 : List Char)
       (r0 : Char) (rom w3 suffix : List Char),
      isPyDigit d1 = true → isPyDigit d2 = true →
      isPyDigit d3 = true → isPyDigit d4 = true →
      (∀ x ∈ w1, isPySpace x = true) → isPySpace s0 = true →
      (∀ x ∈ w2, isPySpace x = true) →
      isRomanChar r0 = true → (∀ x ∈ rom, isRomanChar x = true) →
      (∀ x ∈ w3, isPySpace x = true) →
      ELIIdentifier.from_njt_reference (String.mk (d1 :: d2 :: d3 :: d4 :: '.' ::
          (w1 ++ 'é' :: 'v' :: 'i' :: s0 ::
            (w2 ++ r0 :: (rom ++ '.' ::
              (w3 ++ 't' :: 'ö' :: 'r' :: 'v' :: 'é' :: 'n' :: 'y' :: suffix)))))) =
        { type := "torveny", year := digitsToNat [d1, d2, d3, d4],
          number := String.mk (r0 :: rom) } ∧
      (ELIIdentifier.from_njt_reference (String.mk (d1 :: d2 :: d3 :: d4 :: '.' ::
          (w1 ++ 'é' :: 'v' :: 'i' :: s0 ::
            (w2 ++ r0 :: (rom ++ '.' ::
              (w3 ++ 't' :: 'ö' :: 'r' :: 'v' :: 'é' :: 'n' :: 'y' :: suffix))))))).to_uri =
        "http://www.njt.hu/eli/hu/torveny/" ++ toString (digitsToNat [d1, d2, d3, d4])
          ++ "/" ++ String.mk (r0 :: rom)) ∧
    (ELIIdentifier.from_njt_reference "2023. évi XVIII. törvény" =
      { type := "torveny", year := 2023, number := "XVIII" } ∧
    (ELIIdentifier.from_njt_reference "2023. évi XVIII. törvény").to_uri =
      "http://www.njt.hu/eli/hu/torveny/2023/XVIII") := by
  constructor
  · intro d1 d2 d3 d4 w1 s0 w2 r0 rom w3 suffix hd1 hd2 hd3 hd4 hw1 hs0 hw2
      hr0 hrom hw3
    have hml := matchLaw_complete d1 d2 d3 d4 w1 s0 w2 r0 rom w3 suffix
      hd1 hd2 hd3 hd4 hw1 hs0 hw2 hr0 hrom hw3
    have hres : ELIIdentifier.from_njt_reference (String.mk (d1 :: d2 :: d3 :: d4 :: '.' ::
        (w1 ++ 'é' :: 'v' :: 'i' :: s0 ::
          (w2 ++ r0 :: (rom ++ '.' ::
            (w3 ++ 't' :: 'ö' :: 'r' :: 'v' :: 'é' :: 'n' :: 'y' :: suffix)))))) =
        { type := "torveny", year := digitsToNat [d1, d2, d3, d4],
          number := String.mk (r0 :: rom) } := by
      simp only [ELIIdentifier.from_njt_reference, hml]
    exact ⟨hres, by rw [hres]; rfl⟩
  · exact ⟨rfl, rfl⟩

/-- C4 (witness): the concrete example instantiates the universal clause
with its whitespace runs and roman digits spelled out. -/
theorem law_pattern_resolution_witness :
    ELIIdentifier.from_njt_reference (String.mk ('2' :: '0' :: '2' :: '3' :: '.' ::
        ([' '] ++ 'é' :: 'v' :: 'i' :: ' ' ::
          ([] ++ 'X' :: (['V', 'I', 'I', 'I'] ++ '.' ::
            ([' '] ++ 't' :: 'ö' :: 'r' :: 'v' :: 'é' :: 'n' :: 'y' :: [])))))) =
      { type := "torveny", year := digitsToNat ['2', '0', '2', '3'],
        number := String.mk ('X' :: ['V', 'I', 'I', 'I']) } :=
  (law_pattern_resolution.1 '2' '0' '2' '3' [' '] ' ' [] 'X'
    ['V', 'I', 'I', 'I'] [' '] [] rfl rfl rfl rfl (by decide) rfl (by decide)
    rfl (by decide) (by decide)).1

/-- C5: for every `ELIIdentifier` — including the zero-value identifier
returned for an unresolved reference, with `type = ""` and `year = 0` —
`to_uri` is the pure total function that concatenates the components in
the fixed order `.../{country}/{type}/{year}/{number}` followed by the
optional point, version, and non-default language segments; on the
zero identifier it yields a URI (with empty type and number segments)
rather than an error. -/
theorem toUri_is_fixed_order_template :
    (∀ e : ELIIdentifier, e.to_uri = specEliUriTemplate e) ∧
    ({} : ELIIdentifier).to_uri = "http://www.njt.hu/eli/hu//0/" := by
  constructor
  · intro e
    unfold ELIIdentifier.to_uri specEliUriTemplate
    by_cases hp : e.point = "" <;> by_cases hv : e.version = "" <;>
      by_cases hl : e.language = "hu" <;>
        simp [hp, hv, hl, strAppend_assoc, strAppend_empty]
  · rfl

/-- C6: `validate_eli_compliance` returns true exactly when the four
fields `eli_uri`, `title`, `content`, `status` are all present and
non-empty and `eli_uri` starts with the canonical prefix
"http://www.njt.hu/eli/"; in particular it returns false whenever any of
the four fields is empty or missing. -/
theorem validate_eli_compliance_iff :
    ∀ d : ComplianceDoc,
      validate_eli_compliance d = true ↔
        ((∃ u, d.eli_uri = some u ∧ u ≠ "" ∧
            u.startsWith "http://www.njt.hu/eli/" = true) ∧
         (∃ t, d.title = some t ∧ t ≠ "") ∧
         (∃ c, d.content = some c ∧ c ≠ "") ∧
         (∃ s, d.status = some s ∧ s ≠ "")) := by
  rintro ⟨u, t, c, s⟩
  simp only [validate_eli_compliance, Bool.and_eq_true, fieldTruthy_eq_true]
  constructor
  · rintro ⟨⟨⟨⟨⟨u', hu, hu0⟩, ht⟩, hc⟩, hs⟩, hm⟩
    subst hu
    exact ⟨⟨u', rfl, hu0, hm⟩, ht, hc, hs⟩
  · rintro ⟨⟨u', hu, hu0, hpre⟩, ht, hc, hs⟩
    subst hu
    exact ⟨⟨⟨⟨⟨u', rfl, hu0⟩, ht⟩, hc⟩, hs⟩, hpre⟩

/-- C8: `calculate_importance_level` computes the weighted score — 4 when
a critical term occurs in the lower-cased title, 2 when a high term does,
1 when a medium term does, plus `min(len(legal_references), 2)` — and
buckets the total at the thresholds 4 (critical), 2 (high), 1 (medium),
and low otherwise. -/
theorem calculate_importance_matches_spec :
    ∀ p : MonitorMod.PublicationItem,
      MonitorMod.calculate_importance_level p =
        MonitorMod.specImportanceBucket (MonitorMod.specImportanceScore p) := by
  intro p
  unfold MonitorMod.calculate_importance_level MonitorMod.specImportanceScore
    MonitorMod.specImportanceBucket
  by_cases h1 : MonitorMod.critical_terms.any
      (fun term => containsSub (lowerStr p.title) term) = true <;>
    by_cases h2 : MonitorMod.high_terms.any
        (fun term => containsSub (lowerStr p.title) term) = true <;>
      by_cases h3 : MonitorMod.medium_terms.any
          (fun term => containsSub (lowerStr p.title) term) = true <;>
        simp only [h1, h2, h3, Bool.not_eq_true, if_true, if_false,
          Nat.zero_add] <;>
        split_ifs <;> rfl

theorem processStep_foldl_count {α : Type} (env : NJTMod.CrawlEnv α) :
    ∀ (links : List String) (docs : List α) (st : NJTMod.CrawlStatistics),
      (links.foldl (NJTMod.processStep env) (docs, st)).2.documents_processed
          + docs.length =
        st.documents_processed +
          (links.foldl (NJTMod.processStep env) (docs, st)).1.length := by
  intro links
  induction links with
  | nil => intro docs st; simp
  | cons l ls ih =>
    intro docs st
    rcases h : env.processDoc l with d | _ | msg <;>
      simp only [List.foldl_cons, NJTMod.processStep, h] <;>
      [skip; exact ih docs st; exact ih docs _]
    have := ih (docs ++ [d])
      { st with documents_processed := st.documents_processed + 1 }
    simp only [List.length_append, List.length_cons, List.length_nil] at this ⊢
    omega

theorem processStep_foldl_len {α : Type} (env : NJTMod.CrawlEnv α) :
    ∀ (links : List String) (docs : List α) (st : NJTMod.CrawlStatistics),
      (links.foldl (NJTMod.processStep env) (docs, st)).1.length ≤
        docs.length + links.length := by
  intro links
  induction links with
  | nil => intro docs st; simp
  | cons l ls ih =>
    intro docs st
    rcases h : env.processDoc l with d | _ | msg <;>
      simp only [List.foldl_cons, NJTMod.processStep, h, List.length_cons]
    · have := ih (docs ++ [d])
        { st with documents_processed := st.documents_processed + 1 }
      simp only [List.length_append, List.length_cons, List.length_nil] at this
      omega
    · have := ih docs st
      omega
    · have := ih docs { st with errors := st.errors + 1 }
      omega

theorem processStep_foldl_preserves {α : Type} (env : NJTMod.CrawlEnv α) :
    ∀ (links : List String) (docs : List α) (st : NJTMod.CrawlStatistics),
      (links.foldl (NJTMod.processStep env) (docs, st)).2.start_time = st.start_time ∧
      (links.foldl (NJTMod.processStep env) (docs, st)).2.end_time = st.end_time ∧
      (links.foldl (NJTMod.processStep env) (docs, st)).2.documents_found =
        st.documents_found := by
  intro links
  induction links with
  | nil => intro docs st; exact ⟨rfl, rfl, rfl⟩
  | cons l ls ih =>
    intro docs st
    rcases h : env.processDoc l with d | _ | msg <;>
      simp only [List.foldl_cons, NJTMod.processStep, h] <;>
      [exact ih (docs ++ [d]) _; exact ih docs st; exact ih docs _]

theorem get_crawl_statistics_fst (s : NJTMod.CrawlStatistics) :
    (NJTMod.get_crawl_statistics s).1 = s := by
  rcases s with ⟨f, p, u, e, st, en⟩
  cases st <;> cases en <;> rfl

theorem crawl_ok_eq {α : Type} (env : NJTMod.CrawlEnv α)
    (stats0 : NJTMod.CrawlStatistics) (u : Unit)
    (hgoto : env.gotoMain = Except.ok u)
    (st1 : NJTMod.CrawlStatistics)
    (hst1 : st1 = { stats0 with
      start_time := some env.t0
      documents_found := (NJTMod.extract_document_links env).length }) :
    NJTMod.crawl_search_results env stats0 =
      (Except.ok (((NJTMod.extract_document_links env).take 5).foldl
          (NJTMod.processStep env) ([], st1)).1,
       { (((NJTMod.extract_document_links env).take 5).foldl
          (NJTMod.processStep env) ([], st1)).2 with end_time := some env.t1 }) := by
  subst hst1
  simp [NJTMod.crawl_search_results, hgoto]

/-- C1 (`code_bug` evidence): the proxy-failure retry of
`JogtarCrawler.crawl` / `MagyarKozlonyCrawler.crawl` is not capped at 3
rotations and need not terminate. With four proxies that all fail
proxy-classified, the run performs 4 rotations and then completes
without ever being declared fatal; with no proxy manager and every
attempt raising an error whose text contains "proxy", the self-recursion
`return await self.crawl()` never ends — for every fuel bound the run is
still retrying. -/
theorem jogtar_proxy_retry_unbounded :
    JogtarMod.crawl JogtarMod.fetchProxiesAllBad 0 6
        (BaseCrawlerMod.initProxyManager ["p1", "p2", "p3", "p4"]) =
      JogtarMod.CrawlOutcome.completed 4 ∧
    ∀ fuel : Nat,
      JogtarMod.crawl JogtarMod.fetchAlwaysProxyError 0 fuel
          (BaseCrawlerMod.initProxyManager []) =
        JogtarMod.CrawlOutcome.stillRetrying fuel := by
  constructor
  · rfl
  · intro fuel
    have hnone : BaseCrawlerMod.initProxyManager ([] : List String) = none := rfl
    rw [hnone]
    induction fuel with
    | zero => rfl
    | succ n ih =>
      simp only [JogtarMod.crawl, JogtarMod.fetchAlwaysProxyError]
      rw [ih]

/-- C2 (counterexample): when the initial navigation fails, the crawl
re-raises instead of returning — the caller receives the exception, not
the statistics nor the document list, and `end_time` is never written. -/
theorem crawl_fatal_abort_returns_nothing :
    (NJTMod.crawl_search_results NJTMod.fatalNavEnv NJTMod.initStatistics).1 =
        Except.error "Timeout 30000ms exceeded" ∧
    (NJTMod.crawl_search_results NJTMod.fatalNavEnv NJTMod.initStatistics).2.end_time =
        none := by
  exact ⟨rfl, rfl⟩

/-- C2 (amended): per-document failures are tolerated — a completed run
returns exactly the documents extracted (`documents_processed` grows by
their number) and stamps `end_time` — and the statistics object always
records `start_time` and stays queryable through `get_crawl_statistics`;
but a fatal navigation error re-raises, leaving the statistics at their
pre-loop values with `end_time` unset and returning no document list. -/
theorem crawl_partial_results_accounting :
    ∀ (α : Type) (env : NJTMod.CrawlEnv α) (stats0 : NJTMod.CrawlStatistics),
      (NJTMod.crawl_search_results env stats0).2.start_time = some env.t0 ∧
      (∀ e, (NJTMod.crawl_search_results env stats0).1 = Except.error e →
        (NJTMod.crawl_search_results env stats0).2 =
          { stats0 with start_time := some env.t0 }) ∧
      (∀ docs, (NJTMod.crawl_search_results env stats0).1 = Except.ok docs →
        (NJTMod.crawl_search_results env stats0).2.end_time = some env.t1 ∧
        (NJTMod.crawl_search_results env stats0).2.documents_processed =
          stats0.documents_processed + docs.length) ∧
      (NJTMod.get_crawl_statistics (NJTMod.crawl_search_results env stats0).2).1 =
        (NJTMod.crawl_search_results env stats0).2 := by
  intro α env stats0
  rcases hgoto : env.gotoMain with e | u
  · refine ⟨?_, ?_, ?_, ?_⟩ <;>
      simp [NJTMod.crawl_search_results, hgoto, get_crawl_statistics_fst]
  · have hok := crawl_ok_eq env stats0 u hgoto _ rfl
    have hpres := processStep_foldl_preserves env
      ((NJTMod.extract_document_links env).take 5) ([] : List α)
      { stats0 with
        start_time := some env.t0
        documents_found := (NJTMod.extract_document_links env).length }
    have hcount := processStep_foldl_count env
      ((NJTMod.extract_document_links env).take 5) ([] : List α)
      { stats0 with
        start_time := some env.t0
        documents_found := (NJTMod.extract_document_links env).length }
    refine ⟨?_, ?_, ?_, ?_⟩
    · rw [hok]
      exact hpres.1
    · intro e he
      rw [hok] at he
      exact absurd he (by simp)
    · intro docs hdocs
      rw [hok] at hdocs ⊢
      simp only [Except.ok.injEq] at hdocs
      refine ⟨rfl, ?_⟩
      simp only [List.length_nil, Nat.add_zero] at hcount
      simp only [← hdocs]
      exact hcount
    · exact get_crawl_statistics_fst _

/-- C2 (amended, witness): a concrete fatal navigation run — the caller
gets the exception while the statistics object holds the pre-loop values
with `start_time` set. -/
theorem crawl_partial_results_accounting_witness :
    (NJTMod.crawl_search_results NJTMod.fatalNavEnv NJTMod.initStatistics).1 =
        Except.error "Timeout 30000ms exceeded" ∧
    (NJTMod.crawl_search_results NJTMod.fatalNavEnv NJTMod.initStatistics).2 =
      { NJTMod.initStatistics with start_time := some 100 } :=
  ⟨rfl,
   (crawl_partial_results_accounting Unit NJTMod.fatalNavEnv
      NJTMod.initStatistics).2.1 "Timeout 30000ms exceeded" rfl⟩

/-- C10: in every `crawl` / `crawl_search_results` run of a fresh
`NJTCrawler`, the link extractor returns at most 10 candidate links
(`links[:10]`), so `documents_found ≤ 10`; and the per-document loop runs
over `document_links[:5]`, so `documents_processed ≤ 5` and the returned
document list has at most 5 entries. -/
theorem crawl_bounded_caps :
    ∀ (α : Type) (env : NJTMod.CrawlEnv α),
      (NJTMod.extract_document_links env).length ≤ 10 ∧
      (NJTMod.crawl_search_results env NJTMod.initStatistics).2.documents_found ≤ 10 ∧
      (NJTMod.crawl_search_results env NJTMod.initStatistics).2.documents_processed ≤ 5 ∧
      ∀ docs, (NJTMod.crawl_search_results env NJTMod.initStatistics).1 = Except.ok docs →
        docs.length ≤ 5 := by
  intro α env
  have hlinks : (NJTMod.extract_document_links env).length ≤ 10 := by
    simp only [NJTMod.extract_document_links, List.length_take]
    omega
  rcases hgoto : env.gotoMain with e | u
  · refine ⟨hlinks, ?_, ?_, ?_⟩ <;>
      simp [NJTMod.crawl_search_results, hgoto, NJTMod.initStatistics]
  · have hok := crawl_ok_eq env NJTMod.initStatistics u hgoto _ rfl
    have hpres := processStep_foldl_preserves env
      ((NJTMod.extract_document_links env).take 5) ([] : List α)
      { NJTMod.initStatistics with
        start_time := some env.t0
        documents_found := (NJTMod.extract_document_links env).length }
    have hcount := processStep_foldl_count env
      ((NJTMod.extract_document_links env).take 5) ([] : List α)
      { NJTMod.initStatistics with
        start_time := some env.t0
        documents_found := (NJTMod.extract_document_links env).length }
    have hflen := processStep_foldl_len env
      ((NJTMod.extract_document_links env).take 5) ([] : List α)
      { NJTMod.initStatistics with
        start_time := some env.t0
        documents_found := (NJTMod.extract_document_links env).length }
    have htake5 : ((NJTMod.extract_document_links env).take 5).length ≤ 5 := by
      simp only [List.length_take]
      omega
    simp only [List.length_nil, Nat.add_zero, Nat.zero_add] at hcount hflen
    refine ⟨hlinks, ?_, ?_, ?_⟩
    · rw [hok]
      calc _ = (NJTMod.extract_document_links env).length := hpres.2.2
      _ ≤ 10 := hlinks
    · rw [hok]
      dsimp only [NJTMod.initStatistics] at hcount hflen ⊢
      omega
    · intro docs hdocs
      rw [hok] at hdocs
      simp only [Except.ok.injEq] at hdocs
      rw [← hdocs]
      dsimp only [NJTMod.initStatistics] at hflen ⊢
      omega

/-- C10 (witness): the concrete completed run yields exactly one document
and the theorem's bound applies to it. -/
theorem crawl_bounded_caps_witness :
    (NJTMod.crawl_search_results NJTMod.okRunEnv NJTMod.initStatistics).1 =
        Except.ok [()] ∧ ([()] : List Unit).length ≤ 5 :=
  ⟨rfl, (crawl_bounded_caps Unit NJTMod.okRunEnv).2.2.2 [()] rfl⟩

/-- C9: whenever the fallible steps of `_extract_document_data` raise —
either `page.content()` at the start or the fallback `page.title()` call —
the exception is swallowed and the minimal placeholder record (empty
content, `egyéb`/`ismeretlen` defaults, title synthesized from the URL) is
returned instead of propagating, so extraction never aborts the enclosing
crawl. -/
theorem extract_exception_yields_placeholder :
    ∀ (env : ExtractMod.ExtractEnv) (url e : String),
      (env.pageContent = Except.error e →
        ExtractMod.extract_document_data env url = ExtractMod.placeholderData url) ∧
      (env.pageContent = Except.ok () → env.findTitleText = none →
        env.pageTitle = Except.error e →
        ExtractMod.extract_document_data env url = ExtractMod.placeholderData url) := by
  intro env url e
  constructor
  · intro h
    unfold ExtractMod.extract_document_data ExtractMod.extractBody
    rw [h]
    rfl
  · intro h1 h2 h3
    unfold ExtractMod.extract_document_data ExtractMod.extractBody
    rw [h1, h2, h3]
    rfl

/-- C3: for every proxy-manager state (hence along every sequence of
`get_next_proxy` / `mark_proxy_failed` / `reset_failed_proxies` calls),
`get_next_proxy` never returns a proxy in the current failed set; it
returns none whenever the active set (proxies minus failed) is empty;
marking is idempotent; and concretely, with proxies [A, B, C] and A, B
marked failed every draw returns C, while after a reset all three proxies
are active again. -/
theorem proxy_manager_invariants :
    (∀ (m : AntiDetection.AdvancedProxyManager) (k : Nat)
       (d : AntiDetection.ProxyDict) (m' : AntiDetection.AdvancedProxyManager),
        AntiDetection.get_next_proxy m k = (some d, m') →
          d.server ∉ m.failed_proxies) ∧
    (∀ (m : AntiDetection.AdvancedProxyManager) (k : Nat),
        AntiDetection.activeProxies m = [] →
          (AntiDetection.get_next_proxy m k).1 = none) ∧
    (∀ (m : AntiDetection.AdvancedProxyManager) (p : String),
        AntiDetection.mark_proxy_failed (AntiDetection.mark_proxy_failed m p) p =
          AntiDetection.mark_proxy_failed m p) ∧
    (∀ k : Nat,
        (AntiDetection.get_next_proxy
            (AntiDetection.mark_proxy_failed
              (AntiDetection.mark_proxy_failed
                (AntiDetection.mkProxyManager ["A", "B", "C"]) "A") "B") k).1 =
          some { server := "C", username := none, password := none }) ∧
    AntiDetection.activeProxies
        (AntiDetection.reset_failed_proxies
          (AntiDetection.mark_proxy_failed
            (AntiDetection.mark_proxy_failed
              (AntiDetection.mkProxyManager ["A", "B", "C"]) "A") "B")) =
      ["A", "B", "C"] := by
  refine ⟨?_, ?_, ?_, ?_, rfl⟩
  · intro m k d m' h
    unfold AntiDetection.get_next_proxy at h
    cases h1 : m.proxies.isEmpty <;> simp only [h1] at h
    · cases h2 : (AntiDetection.activeProxies m).isEmpty <;> simp only [h2] at h
      · simp only [Bool.false_eq_true, if_false, Prod.mk.injEq,
          Option.some.injEq] at h
        obtain ⟨hd, hm'⟩ := h
        have hlen : (AntiDetection.activeProxies m).length ≠ 0 := by
          intro h0
          rw [List.isEmpty_iff_length_eq_zero.mpr h0] at h2
          exact Bool.noConfusion h2
        have hidx : k % (AntiDetection.activeProxies m).length <
            (AntiDetection.activeProxies m).length :=
          Nat.mod_lt _ (Nat.pos_of_ne_zero hlen)
        have hmem : (AntiDetection.activeProxies m).getD
            (k % (AntiDetection.activeProxies m).length) "" ∈
            AntiDetection.activeProxies m := by
          rw [List.getD_eq_getElem _ _ hidx]
          exact List.getElem_mem hidx
        have hmem2 := List.mem_filter.mp hmem
        subst hd
        dsimp only
        intro hin
        have helem := List.elem_iff.mpr hin
        have hnc := hmem2.2
        simp only [List.contains] at hnc
        rw [helem] at hnc
        exact Bool.noConfusion hnc
      · simp at h
    · simp at h
  · intro m k h
    unfold AntiDetection.get_next_proxy
    cases h1 : m.proxies.isEmpty <;> simp [h1, h]
  · intro m p
    unfold AntiDetection.mark_proxy_failed
    cases h : m.failed_proxies.contains p
    · simp [h, List.contains_cons]
    · have hp : p ∈ m.failed_proxies := List.elem_iff.mp h
      simp [h, hp]
  · intro k
    rw [show AntiDetection.mark_proxy_failed
        (AntiDetection.mark_proxy_failed
          (AntiDetection.mkProxyManager ["A", "B", "C"]) "A") "B" =
        { proxies := ["A", "B", "C"], current_proxy := none,
          failed_proxies := ["B", "A"] } from rfl]
    unfold AntiDetection.get_next_proxy
    rw [show AntiDetection.activeProxies
        { proxies := ["A", "B", "C"], current_proxy := none,
          failed_proxies := ["B", "A"] } = ["C"] from rfl]
    simp [Nat.mod_one]

/-- C3 (witness): with the single proxy A marked failed the active set is
empty and the next draw returns none. -/
theorem proxy_manager_invariants_witness :
    AntiDetection.activeProxies
        (AntiDetection.mark_proxy_failed (AntiDetection.mkProxyManager ["A"]) "A") =
      [] ∧
    (AntiDetection.get_next_proxy
        (AntiDetection.mark_proxy_failed (AntiDetection.mkProxyManager ["A"]) "A") 0).1 =
      none :=
  ⟨rfl, proxy_manager_invariants.2.1 _ 0 rfl⟩

/-- C9 (witness): a concrete page whose content fetch raises produces the
placeholder record. -/
theorem extract_exception_yields_placeholder_witness :
    ExtractMod.failingExtractEnv.pageContent = Except.error "net::ERR_TIMED_OUT" ∧
    ExtractMod.extract_document_data ExtractMod.failingExtractEnv "https://njt.hu/x" =
      ExtractMod.placeholderData "https://njt.hu/x" :=
  ⟨rfl,
   (extract_exception_yields_placeholder ExtractMod.failingExtractEnv
      "https://njt.hu/x" "net::ERR_TIMED_OUT").1 rfl⟩

theorem contains_eq_false_iff (l : List String) (a : String) :
    l.contains a = false ↔ a ∉ l := by
  cases h : l.contains a
  · simp only [true_iff]
    intro hmem
    have helem := List.elem_iff.mpr hmem
    rw [show List.elem a l = l.contains a from rfl, h] at helem
    exact Bool.noConfusion helem
  · simp only [Bool.true_eq_false, false_iff, not_not]
    exact List.elem_iff.mp h

theorem getLast?_mem_list {α : Type} {l : List α} {a : α}
    (h : l.getLast? = some a) : a ∈ l := by
  rcases List.mem_getLast?_eq_getLast (Option.mem_def.mpr h) with ⟨hne, heq⟩
  rw [heq]
  exact List.getLast_mem hne

theorem dictKeys_aux :
    ∀ (l : List MonitorMod.PublicationItem) (acc : List String),
      (l.map (fun p => p.publication_id)).Nodup →
      (∀ p ∈ l, acc.contains p.publication_id = false) →
      l.foldl (fun ks p => if ks.contains p.publication_id then ks
          else ks ++ [p.publication_id]) acc =
        acc ++ l.map (fun p => p.publication_id) := by
  intro l
  induction l with
  | nil => intro acc _ _; simp
  | cons p ps ih =>
    intro acc hnd hdisj
    simp only [List.foldl_cons]
    rw [hdisj p (List.mem_cons_self p ps)]
    simp only [Bool.false_eq_true, if_false]
    simp only [List.map_cons, List.nodup_cons] at hnd
    rw [ih (acc ++ [p.publication_id]) hnd.2 ?_]
    · simp [List.append_assoc]
    · intro q hq
      rw [contains_eq_false_iff]
      intro hmem
      rcases List.mem_append.mp hmem with h | h
      · have := hdisj q (List.mem_cons_of_mem p hq)
        rw [contains_eq_false_iff] at this
        exact this h
      · have hqp : q.publication_id = p.publication_id := by simpa using h
        exact hnd.1 (hqp ▸ List.mem_map.mpr ⟨q, hq, rfl⟩)

theorem dictKeys_eq (l : List MonitorMod.PublicationItem)
    (hnd : (l.map (fun p => p.publication_id)).Nodup) :
    MonitorMod.dictKeys l = l.map (fun p => p.publication_id) := by
  unfold MonitorMod.dictKeys
  rw [dictKeys_aux l [] hnd (fun p _ => rfl)]
  simp

theorem dictGet_mem (l : List MonitorMod.PublicationItem) (k : String)
    (p : MonitorMod.PublicationItem) (h : MonitorMod.dictGet l k = some p) :
    p ∈ l ∧ p.publication_id = k := by
  unfold MonitorMod.dictGet at h
  have hmem := getLast?_mem_list h
  have := List.mem_filter.mp hmem
  exact ⟨this.1, by simpa using this.2⟩

theorem dictGet_eq_of_nodup :
    ∀ (l : List MonitorMod.PublicationItem),
      (l.map (fun p => p.publication_id)).Nodup →
      ∀ p ∈ l, MonitorMod.dictGet l p.publication_id = some p := by
  intro l
  induction l with
  | nil => intro _ p hp; exact absurd hp (List.not_mem_nil p)
  | cons a as ih =>
    intro hnd p hp
    simp only [List.map_cons, List.nodup_cons] at hnd
    unfold MonitorMod.dictGet
    rcases List.mem_cons.mp hp with rfl | hp'
    · simp only [List.filter_cons, beq_self_eq_true, if_true]
      have hfil : as.filter (fun q => q.publication_id == p.publication_id) = [] := by
        rw [List.filter_eq_nil_iff]
        intro q hq hbeq
        exact hnd.1 (by
          have : q.publication_id = p.publication_id := by simpa using hbeq
          exact this ▸ List.mem_map.mpr ⟨q, hq, rfl⟩)
      rw [hfil]
      rfl
    · have hne : (a.publication_id == p.publication_id) = false := by
        rw [beq_eq_false_iff_ne]
        intro he
        exact hnd.1 (he ▸ List.mem_map.mpr ⟨p, hp', rfl⟩)
      simp only [List.filter_cons, hne, Bool.false_eq_true, if_false]
      have := ih hnd.2 p hp'
      unfold MonitorMod.dictGet at this
      exact this


theorem detect_changes_char :
    ∀ (cur prev : List MonitorMod.PublicationItem),
      (cur.map (fun p => p.publication_id)).Nodup →
      (prev.map (fun p => p.publication_id)).Nodup →
      ∀ q, q ∈ MonitorMod.detect_changes cur prev ↔
        ((∃ p ∈ cur, p.publication_id ∉ prev.map (fun r => r.publication_id) ∧
            q = MonitorMod.withChange p "new") ∨
         (∃ p ∈ cur, ∃ p' ∈ prev, p.publication_id = p'.publication_id ∧
            p.content_hash ≠ p'.content_hash ∧
            q = MonitorMod.withChange p "modified") ∨
         (∃ p ∈ prev, p.publication_id ∉ cur.map (fun r => r.publication_id) ∧
            q = MonitorMod.withChange p "deleted")) := by
  intro cur prev hc hp q
  unfold MonitorMod.detect_changes
  rw [dictKeys_eq cur hc, dictKeys_eq prev hp]
  simp only [List.mem_append, List.mem_filterMap]
  constructor
  · rintro ((⟨k, hkmem, hf⟩ | ⟨k, hkmem, hf⟩) | ⟨k, hkmem, hf⟩)
    · rcases List.mem_map.mp hkmem with ⟨p, hpmem, rfl⟩
      cases hcont : (prev.map (fun r => r.publication_id)).contains p.publication_id
      · rw [hcont] at hf
        simp only [Bool.false_eq_true, if_false] at hf
        rcases Option.map_eq_some'.mp hf with ⟨p2, hget, hq⟩
        rcases dictGet_mem cur _ p2 hget with ⟨hp2mem, hp2id⟩
        refine Or.inl ⟨p2, hp2mem, ?_, hq.symm⟩
        rw [hp2id]
        exact (contains_eq_false_iff _ _).mp hcont
      · rw [hcont] at hf
        simp at hf
    · rcases List.mem_map.mp hkmem with ⟨p, hpmem, rfl⟩
      cases hcont : (prev.map (fun r => r.publication_id)).contains p.publication_id
      · rw [hcont] at hf
        simp at hf
      · rw [hcont] at hf
        rw [if_pos rfl] at hf
        split at hf
        · rename_i c pv hg1 hg2
          split at hf
          · rename_i hhash
            rcases dictGet_mem cur _ c hg1 with ⟨hcmem, hcid⟩
            rcases dictGet_mem prev _ pv hg2 with ⟨hpvmem, hpvid⟩
            refine Or.inr (Or.inl ⟨c, hcmem, pv, hpvmem, ?_, hhash,
              (Option.some.inj hf).symm⟩)
            rw [hcid, hpvid]
          · exact absurd hf (by simp)
        · exact absurd hf (by simp)
    · rcases List.mem_map.mp hkmem with ⟨p, hpmem, rfl⟩
      cases hcont : (cur.map (fun r => r.publication_id)).contains p.publication_id
      · rw [hcont] at hf
        simp only [Bool.false_eq_true, if_false] at hf
        rcases Option.map_eq_some'.mp hf with ⟨p2, hget, hq⟩
        rcases dictGet_mem prev _ p2 hget with ⟨hp2mem, hp2id⟩
        refine Or.inr (Or.inr ⟨p2, hp2mem, ?_, hq.symm⟩)
        rw [hp2id]
        exact (contains_eq_false_iff _ _).mp hcont
      · rw [hcont] at hf
        simp at hf
  · rintro (⟨p, hpmem, hnotin, rfl⟩ | ⟨p, hpmem, p', hp'mem, hideq, hhne, rfl⟩ |
      ⟨p, hpmem, hnotin, rfl⟩)
    · refine Or.inl (Or.inl ⟨p.publication_id, List.mem_map.mpr ⟨p, hpmem, rfl⟩, ?_⟩)
      rw [(contains_eq_false_iff _ _).mpr hnotin]
      simp only [Bool.false_eq_true, if_false]
      rw [dictGet_eq_of_nodup cur hc p hpmem]
      rfl
    · refine Or.inl (Or.inr ⟨p.publication_id, List.mem_map.mpr ⟨p, hpmem, rfl⟩, ?_⟩)
      have hcont : (prev.map (fun r => r.publication_id)).contains p.publication_id = true := by
        have hidmem : p.publication_id ∈ prev.map (fun r => r.publication_id) :=
          hideq ▸ List.mem_map.mpr ⟨p', hp'mem, rfl⟩
        exact List.elem_iff.mpr hidmem
      rw [hcont, if_pos rfl]
      rw [dictGet_eq_of_nodup cur hc p hpmem]
      rw [show MonitorMod.dictGet prev p.publication_id =
        MonitorMod.dictGet prev p'.publication_id from by rw [hideq]]
      rw [dictGet_eq_of_nodup prev hp p' hp'mem]
      show (if p.content_hash ≠ p'.content_hash
          then some (MonitorMod.withChange p "modified") else none) =
        some (MonitorMod.withChange p "modified")
      rw [if_pos hhne]
    · refine Or.inr ⟨p.publication_id, List.mem_map.mpr ⟨p, hpmem, rfl⟩, ?_⟩
      rw [(contains_eq_false_iff _ _).mpr hnotin]
      simp only [Bool.false_eq_true, if_false]
      rw [dictGet_eq_of_nodup prev hp p hpmem]
      rfl


/-- C7: `detect_changes` indexes both snapshots by publication id and
returns exactly the current-only items tagged "new", the in-both items
with differing `content_hash` tagged "modified", and the previous-only
items tagged "deleted" (membership characterization under distinct ids
per snapshot); on the spec's worked example — previous ids {1, 2},
current ids {2, 3} with id 2's hash changed — the result is exactly
[id 3 new, id 2 modified, id 1 deleted]. -/
theorem detect_changes_correct :
    (∀ (cur prev : List MonitorMod.PublicationItem),
      (cur.map (fun p => p.publication_id)).Nodup →
      (prev.map (fun p => p.publication_id)).Nodup →
      ∀ q, q ∈ MonitorMod.detect_changes cur prev ↔
        ((∃ p ∈ cur, p.publication_id ∉ prev.map (fun r => r.publication_id) ∧
            q = MonitorMod.withChange p "new") ∨
         (∃ p ∈ cur, ∃ p' ∈ prev, p.publication_id = p'.publication_id ∧
            p.content_hash ≠ p'.content_hash ∧
            q = MonitorMod.withChange p "modified") ∨
         (∃ p ∈ prev, p.publication_id ∉ cur.map (fun r => r.publication_id) ∧
            q = MonitorMod.withChange p "deleted"))) ∧
    MonitorMod.detect_changes
        [MonitorMod.examplePub "2" "x2", MonitorMod.examplePub "3" "h3"]
        [MonitorMod.examplePub "1" "h1", MonitorMod.examplePub "2" "h2"] =
      [MonitorMod.withChange (MonitorMod.examplePub "3" "h3") "new",
       MonitorMod.withChange (MonitorMod.examplePub "2" "x2") "modified",
       MonitorMod.withChange (MonitorMod.examplePub "1" "h1") "deleted"] :=
  ⟨detect_changes_char, rfl⟩

/-- C7 (witness): the new item of the worked example is in the diff, via
the characterization applied at the concrete snapshots. -/
theorem detect_changes_correct_witness :
    MonitorMod.withChange (MonitorMod.examplePub "3" "h3") "new" ∈
      MonitorMod.detect_changes
        [MonitorMod.examplePub "2" "x2", MonitorMod.examplePub "3" "h3"]
        [MonitorMod.examplePub "1" "h1", MonitorMod.examplePub "2" "h2"] :=
  (detect_changes_correct.1 _ _ (by decide) (by decide) _).mpr
    (Or.inl ⟨MonitorMod.examplePub "3" "h3", by decide, by decide, rfl⟩)

end EnergiaAI
